import Mathlib

set_option maxHeartbeats 1000000

/-!
Shallow embedding of the food_mcp query engine (src/index.ts, src/types.ts and
the record formatter module) over an explicit in-memory dataset.  JavaScript
numbers are modelled as rationals.  The dataset is passed explicitly to every
operation, mirroring the per-call `loadTacoData()` reads of src/index.ts.
-/

/-- A value stored in a nutrient column of a loaded record: a number, the
explicit absent marker (JavaScript `null`), or `undefined` (the result of
reading a property the record does not have).  JSON cannot carry `NaN`, so a
stored number is always finite. -/
inductive JSVal where
  | num (q : ℚ)
  | null
  | undefined
deriving DecidableEq

/-- A loaded food record (src/types.ts `FoodItem`).  The nutrient columns are
modelled as an association list from field name to stored value so that the
dynamic property accesses `item[nutrient]` of src/index.ts embed faithfully. -/
structure FoodItem where
  id : Int
  description : String
  category : String
  fields : List (String × JSVal)
deriving DecidableEq

/-- Dynamic property read `item[name]` on the nutrient columns: reading a name
that is not among the record fields yields `undefined`, as in JavaScript. -/
def FoodItem.get (r : FoodItem) (name : String) : JSVal :=
  match r.fields.lookup name with
  | some v => v
  | none => JSVal.undefined

/-- JavaScript `value >= m` for a stored field value and a number `m`:
`null` coerces to `0`; `undefined` coerces to `NaN`, so the comparison is
false (src/index.ts lines 224 and 299). -/
def jsGe (v : JSVal) (m : ℚ) : Bool :=
  match v with
  | JSVal.num q => decide (m ≤ q)
  | JSVal.null => decide (m ≤ 0)
  | JSVal.undefined => false

/-- JavaScript `value <= m` for a stored field value and a number `m`
(src/index.ts lines 225 and 300). -/
def jsLe (v : JSVal) (m : ℚ) : Bool :=
  match v with
  | JSVal.num q => decide (q ≤ m)
  | JSVal.null => decide (0 ≤ m)
  | JSVal.undefined => false

/-- `Array.prototype.slice(0, n)` for an integer bound `n`: a nonnegative `n`
keeps the first `n` elements, while a negative `n` counts from the end of the
array, keeping the first `length + n` elements (clamped at zero). -/
def jsSlice {α : Type*} (l : List α) (n : Int) : List α :=
  if 0 ≤ n then l.take n.toNat
  else l.take (l.length - (-n).toNat)

/-- ASCII model of `String.prototype.toLowerCase()`. -/
def jsToLower (s : String) : String := s.map Char.toLower

/-- Decides whether `needle` occurs as a contiguous run inside `hay`. -/
def listIsInfix (needle : List Char) : List Char → Bool
  | [] => needle.isEmpty
  | c :: t => needle.isPrefixOf (c :: t) || listIsInfix needle t

/-- `String.prototype.includes`: substring containment. -/
def strIncludes (s sub : String) : Bool := listIsInfix sub.toList s.toList

/-- The case-insensitive substring match used by advanced search and by batch
sub-queries (src/index.ts lines 208-211, 274-277, 283-288):
`item.description.toLowerCase().includes(q.toLowerCase()) || item.category...`. -/
def matchesText (q : String) (item : FoodItem) : Bool :=
  strIncludes (jsToLower item.description) (jsToLower q) ||
  strIncludes (jsToLower item.category) (jsToLower q)

/-- The predicate of `filterByNutrient.execute` (src/index.ts lines 154-160):
a non-number value (absent marker or undefined property) is rejected outright;
otherwise the inclusive bounds are checked.  `isNaN` never fires in the model
because stored numbers are finite rationals. -/
def nutrientPred (nutrient : String) (min? max? : Option ℚ) (item : FoodItem) : Bool :=
  match item.get nutrient with
  | JSVal.num v =>
    (match min? with
     | some m => decide (m ≤ v)
     | none => true) &&
    (match max? with
     | some m => decide (v ≤ m)
     | none => true)
  | _ => false

/-- Record list produced by `filterByNutrient.execute` before formatting
(src/index.ts lines 152-161); the `limit` parameter defaults to 10 via the
tool parameter schema. -/
def filterByNutrientResults (d : List FoodItem) (nutrient : String)
    (min? max? : Option ℚ) (lim? : Option Int) : List FoodItem :=
  jsSlice (d.filter (nutrientPred nutrient min? max?)) (lim?.getD 10)

/-- `Number.prototype.toFixed(2)`: round to two decimals, ties away from the
floor direction (the ECMAScript rule picks the larger candidate). -/
def toFixed2 (q : ℚ) : String :=
  let n : Int := Int.floor (q * 100 + 1 / 2)
  let a := n.natAbs
  (if n < 0 then "-" else "") ++ toString (a / 100) ++ "." ++
    (if a % 100 < 10 then "0" ++ toString (a % 100) else toString (a % 100))

/-- The label table of the record formatter module (`FIELD_LABELS`). -/
def FIELD_LABELS : List (String × String) :=
  [("id", "ID"), ("description", "Description"), ("category", "Category"),
   ("humidity_percents", "Humidity (%)"), ("energy_kcal", "Energy (kcal)"),
   ("energy_kj", "Energy (kJ)"), ("protein_g", "Protein (g)"),
   ("lipid_g", "Fat (g)"), ("cholesterol_mg", "Cholesterol (mg)"),
   ("carbohydrate_g", "Carbohydrate (g)"), ("fiber_g", "Fiber (g)"),
   ("ashes_g", "Ashes (g)"), ("calcium_mg", "Calcium (mg)"),
   ("magnesium_mg", "Magnesium (mg)"), ("manganese_mg", "Manganese (mg)"),
   ("phosphorus_mg", "Phosphorus (mg)"), ("iron_mg", "Iron (mg)"),
   ("sodium_mg", "Sodium (mg)"), ("potassium_mg", "Potassium (mg)"),
   ("copper_mg", "Copper (mg)"), ("zinc_mg", "Zinc (mg)"),
   ("retinol_mcg", "Retinol (mcg)"), ("re_mcg", "RE (mcg)"),
   ("rae_mcg", "RAE (mcg)"), ("thiamine_mg", "Thiamine (mg)"),
   ("riboflavin_mg", "Riboflavin (mg)"), ("pyridoxine_mg", "Pyridoxine (mg)"),
   ("niacin_mg", "Niacin (mg)"), ("vitaminC_mg", "Vitamin C (mg)"),
   ("saturated_g", "Saturated Fat (g)"),
   ("monounsaturated_g", "Monounsaturated Fat (g)"),
   ("polyunsaturated_g", "Polyunsaturated Fat (g)")]

/-- `FIELD_LABELS[k] || k`. -/
def labelFor (k : String) : String := (FIELD_LABELS.lookup k).getD k

/-- One formatted line of `formatFoodItem` for a nutrient entry; entries whose
value is the absent marker or undefined are dropped, as the formatter filters
out `null`, `undefined` and the empty string. -/
def entryFor (k : String) (v : JSVal) : List String :=
  match v with
  | JSVal.num q => [labelFor k ++ ": " ++ toFixed2 q]
  | _ => []

/-- `formatFoodItem` of the formatter module: one line per present field, in
record field order (`id`, `description`, `category`, then the nutrient
columns), numbers rendered with `toFixed(2)`. -/
def formatFoodItem (f : FoodItem) : String :=
  String.intercalate "\n"
    ([labelFor "id" ++ ": " ++ toFixed2 (f.id : ℚ)] ++
     (if f.description = "" then [] else
       [labelFor "description" ++ ": " ++ f.description]) ++
     (if f.category = "" then [] else
       [labelFor "category" ++ ": " ++ f.category]) ++
     (f.fields.map (fun kv => entryFor kv.1 kv.2)).flatten)

/-- Caller-facing output of `filterByNutrient.execute` (src/index.ts lines
152-165): the "no foods found" message is a normal return value, never a
thrown error. -/
def filterByNutrientExecute (d : List FoodItem) (nutrient : String)
    (min? max? : Option ℚ) (lim? : Option Int) : String :=
  let filtered := filterByNutrientResults d nutrient min? max? lim?
  if filtered.isEmpty then "No foods found for given nutrient filter."
  else
    "Foods matching filter on \x27" ++ nutrient ++ "\x27:\n" ++
      String.intercalate "\n\n"
        (filtered.enum.map (fun fi => toString (fi.1 + 1) ++ ".\n" ++ formatFoodItem fi.2))

/-- `tacoData.find((item) => item.id === id)` of `getFoodById.execute`
(src/index.ts line 123). -/
def lookupById (d : List FoodItem) (i : Int) : Option FoodItem :=
  d.find? (fun item => item.id == i)

/-- Caller-facing output of `getFoodById.execute` (src/index.ts lines
121-126): "not found" is a normal message, not an error. -/
def getFoodByIdExecute (d : List FoodItem) (i : Int) : String :=
  match lookupById d i with
  | none => "No food found with ID " ++ toString i ++ "."
  | some food => formatFoodItem food

/-- The five nutrient fields usable as range filters and sort keys in advanced
search and batch search (the `sort_by` enumeration of src/index.ts). -/
inductive NutrientField where
  | energy_kcal
  | protein_g
  | carbohydrate_g
  | lipid_g
  | fiber_g
deriving DecidableEq

/-- The property name the field designates on a record. -/
def NutrientField.fieldName : NutrientField → String
  | NutrientField.energy_kcal => "energy_kcal"
  | NutrientField.protein_g => "protein_g"
  | NutrientField.carbohydrate_g => "carbohydrate_g"
  | NutrientField.lipid_g => "lipid_g"
  | NutrientField.fiber_g => "fiber_g"

inductive SortOrder where
  | asc
  | desc
deriving DecidableEq

/-- Parameters of `advancedFoodSearch.execute` and of an advanced batch
sub-query object (src/index.ts lines 187-202 and 250-265).  Every field is
optional; the tool schema defaults (`sort_order` desc, `limit` 10) and the
`?? 10` fallback are applied where the source applies them. -/
structure AdvParams where
  query : Option String
  min_energy_kcal : Option ℚ
  max_energy_kcal : Option ℚ
  min_protein_g : Option ℚ
  max_protein_g : Option ℚ
  min_carbohydrate_g : Option ℚ
  max_carbohydrate_g : Option ℚ
  min_lipid_g : Option ℚ
  max_lipid_g : Option ℚ
  min_fiber_g : Option ℚ
  max_fiber_g : Option ℚ
  sort_by : Option NutrientField
  sort_order : Option SortOrder
  limit : Option Int
deriving DecidableEq

/-- The `if (min !== undefined) results = results.filter(item => item[nutrient] >= min)`
step of the advanced/batch nutrient-filter loop (src/index.ts lines 224, 299). -/
def applyMinFilter (field : String) (m : ℚ) (l : List FoodItem) : List FoodItem :=
  l.filter (fun item => jsGe (item.get field) m)

/-- The `if (max !== undefined) results = results.filter(item => item[nutrient] <= max)`
step (src/index.ts lines 225, 300). -/
def applyMaxFilter (field : String) (m : ℚ) (l : List FoodItem) : List FoodItem :=
  l.filter (fun item => jsLe (item.get field) m)

/-- One iteration of the advanced/batch nutrient-filter loop for a single
`(nutrient, minKey, maxKey)` triple. -/
def applyRangeFilter (field : String) (min? max? : Option ℚ)
    (l : List FoodItem) : List FoodItem :=
  let l1 := match min? with
    | some m => applyMinFilter field m l
    | none => l
  match max? with
  | some m => applyMaxFilter field m l1
  | none => l1

/-- Numeric value a stored field contributes to the sort comparator
`valA - valB` / `valB - valA`: `null` coerces to 0 in JavaScript subtraction.
An `undefined` participant makes the real comparator return `NaN`, for which
ECMAScript leaves the sort order implementation-defined; the model picks 0.
No verified claim depends on that case. -/
def sortKey (v : JSVal) : ℚ :=
  match v with
  | JSVal.num q => q
  | JSVal.null => 0
  | JSVal.undefined => 0

/-- The "a may stay before b" relation induced by the comparator of
src/index.ts lines 229-234 / 303-308: anything other than `sort_order = asc`
(including an absent `sort_order` in a batch sub-query) sorts descending. -/
def sortLe (ord : Option SortOrder) (f : NutrientField) (a b : FoodItem) : Bool :=
  match ord with
  | some SortOrder.asc =>
    decide (sortKey (a.get f.fieldName) ≤ sortKey (b.get f.fieldName))
  | _ =>
    decide (sortKey (b.get f.fieldName) ≤ sortKey (a.get f.fieldName))

/-- Insert an element in front of the first later element it may precede;
together with `stableSort` this is the standard stable insertion sort. -/
def orderedInsertLe {α : Type*} (le : α → α → Bool) (x : α) : List α → List α
  | [] => [x]
  | y :: ys => if le x y then x :: y :: ys else y :: orderedInsertLe le x ys

/-- Stable sort with respect to a total boolean preorder.  For a consistent
comparator, ECMAScript `Array.prototype.sort` is required to produce exactly
the stable order, which this function computes. -/
def stableSort {α : Type*} (le : α → α → Bool) : List α → List α
  | [] => []
  | x :: xs => orderedInsertLe le x (stableSort le xs)

/-- The advanced-search pipeline before the final `slice` (src/index.ts lines
203-235, identically lines 282-309 inside the batch tool): optional truthy
query text filters by case-insensitive substring, then the five range filters
run in a fixed order, then the optional sort. -/
def advancedPre (d : List FoodItem) (p : AdvParams) : List FoodItem :=
  let r0 := match p.query with
    | some q => if q = "" then d else d.filter (matchesText q)
    | none => d
  let r1 := applyRangeFilter "energy_kcal" p.min_energy_kcal p.max_energy_kcal r0
  let r2 := applyRangeFilter "protein_g" p.min_protein_g p.max_protein_g r1
  let r3 := applyRangeFilter "carbohydrate_g" p.min_carbohydrate_g p.max_carbohydrate_g r2
  let r4 := applyRangeFilter "lipid_g" p.min_lipid_g p.max_lipid_g r3
  let r5 := applyRangeFilter "fiber_g" p.min_fiber_g p.max_fiber_g r4
  match p.sort_by with
  | some f => stableSort (sortLe p.sort_order f) r5
  | none => r5

/-- Record list returned by advanced search and by an advanced batch
sub-query: the pipeline result truncated by `slice(0, limit ?? 10)`
(src/index.ts lines 237 and 310). -/
def advancedResults (d : List FoodItem) (p : AdvParams) : List FoodItem :=
  jsSlice (advancedPre d p) (p.limit.getD 10)

/-- Caller-facing output of `advancedFoodSearch.execute` (src/index.ts lines
238-239). -/
def advancedFoodSearchExecute (d : List FoodItem) (p : AdvParams) : String :=
  let results := advancedResults d p
  if results.isEmpty then "No foods found for given criteria."
  else String.intercalate "\n\n" (results.map formatFoodItem)

/-- Rendering of a rational for the modelled `JSON.stringify` output. -/
def ratStr (q : ℚ) : String :=
  if q.den = 1 then toString q.num else toString q.num ++ "/" ++ toString q.den

/-- Models `JSON.stringify` of an advanced batch sub-query object, used only
inside the "no foods found" message of the batch tool; no verified claim
inspects this text. -/
def stringifyAdv (p : AdvParams) : String :=
  let strF := fun (k : String) (v : Option String) =>
    match v with
    | some s => ["\x22" ++ k ++ "\x22:\x22" ++ s ++ "\x22"]
    | none => []
  let numF := fun (k : String) (v : Option ℚ) =>
    match v with
    | some q => ["\x22" ++ k ++ "\x22:" ++ ratStr q]
    | none => []
  let intF := fun (k : String) (v : Option Int) =>
    match v with
    | some n => ["\x22" ++ k ++ "\x22:" ++ toString n]
    | none => []
  let sortF := fun (v : Option NutrientField) =>
    match v with
    | some f => ["\x22sort_by\x22:\x22" ++ f.fieldName ++ "\x22"]
    | none => []
  let ordF := fun (v : Option SortOrder) =>
    match v with
    | some SortOrder.asc => ["\x22sort_order\x22:\x22asc\x22"]
    | some SortOrder.desc => ["\x22sort_order\x22:\x22desc\x22"]
    | none => []
  "\x7b" ++ String.intercalate ","
    (strF "query" p.query ++
     numF "min_energy_kcal" p.min_energy_kcal ++ numF "max_energy_kcal" p.max_energy_kcal ++
     numF "min_protein_g" p.min_protein_g ++ numF "max_protein_g" p.max_protein_g ++
     numF "min_carbohydrate_g" p.min_carbohydrate_g ++ numF "max_carbohydrate_g" p.max_carbohydrate_g ++
     numF "min_lipid_g" p.min_lipid_g ++ numF "max_lipid_g" p.max_lipid_g ++
     numF "min_fiber_g" p.min_fiber_g ++ numF "max_fiber_g" p.max_fiber_g ++
     sortF p.sort_by ++ ordF p.sort_order ++ intF "limit" p.limit) ++ "\x7d"

/-- A batch sub-query: a plain string or an advanced query object
(src/index.ts lines 248-266). -/
inductive BatchQuery where
  | str (s : String)
  | adv (p : AdvParams)
deriving DecidableEq

/-- Record list of a string batch sub-query (src/index.ts lines 274-277):
case-insensitive substring matches in dataset order, then `slice(0, 10)`
with the limit hard-wired to 10. -/
def runSearchStringResults (d : List FoodItem) (q : String) : List FoodItem :=
  jsSlice (d.filter (matchesText q)) 10

/-- The `runSearch` helper of `batchFoodSearch.execute` (src/index.ts lines
271-315).  The advanced branch repeats the advanced-search pipeline verbatim,
so it is shared here; an `Invalid query format` case cannot arise because the
sub-query type already separates the two shapes. -/
def runSearch (d : List FoodItem) : BatchQuery → String
  | BatchQuery.str q =>
    let results := runSearchStringResults d q
    if results.isEmpty then "No foods found for query: " ++ q
    else String.intercalate "\n\n" (results.map formatFoodItem)
  | BatchQuery.adv p =>
    let results := advancedResults d p
    if results.isEmpty then "No foods found for query: " ++ stringifyAdv p
    else String.intercalate "\n\n" (results.map formatFoodItem)

/-- Index-carrying recursion equivalent to
`queries.map((q, i) => `Query ${i + 1}:` + runSearch(q))` (src/index.ts line 317). -/
def batchBlocksAux (d : List FoodItem) (i : Nat) : List BatchQuery → List String
  | [] => []
  | q :: qs =>
    ("Query " ++ toString (i + 1) ++ ":\n" ++ runSearch d q) :: batchBlocksAux d (i + 1) qs

/-- The per-item result blocks of `batchFoodSearch.execute`, in input order. -/
def batchBlocks (d : List FoodItem) (qs : List BatchQuery) : List String :=
  batchBlocksAux d 0 qs

/-- Caller-facing output of `batchFoodSearch.execute` (src/index.ts line 317). -/
def batchFoodSearchExecute (d : List FoodItem) (qs : List BatchQuery) : String :=
  String.intercalate "\n\n" (batchBlocks d qs)

/-- A raw cell of the serialized source table as seen by the `nullableNumber`
preprocessor of src/types.ts: a number, a string, or anything else
(`other` covers null, booleans, objects and similar). -/
inductive SrcVal where
  | num (q : ℚ)
  | str (s : String)
  | other
deriving DecidableEq

/-- Executable model of `String.prototype.trim`: drop whitespace from both
ends. -/
def jsTrim (s : String) : String :=
  String.mk (((s.toList.dropWhile Char.isWhitespace).reverse.dropWhile
    Char.isWhitespace).reverse)

/-- `trimmed.replace(",", ".")`: JavaScript `replace` with a string pattern
rewrites only the first occurrence. -/
def replaceFirstCommaAux : List Char → List Char
  | [] => []
  | c :: cs => if c = ',' then '.' :: cs else c :: replaceFirstCommaAux cs

def jsReplaceFirstComma (s : String) : String :=
  String.mk (replaceFirstCommaAux s.toList)

/-- Value of a digit string, most significant digit first. -/
def digitsToNat (cs : List Char) : Nat :=
  cs.foldl (fun a c => a * 10 + (c.toNat - 48)) 0

/-- Nonempty and all decimal digits. -/
def isDigits (cs : List Char) : Bool :=
  !cs.isEmpty && cs.all Char.isDigit

/-- Exponent part after the `e`/`E` marker: optional sign then digits;
anything else makes the whole literal `NaN`. -/
def parseExpPart : List Char → Option Int
  | '+' :: ds => if isDigits ds then some (Int.ofNat (digitsToNat ds)) else none
  | '-' :: ds => if isDigits ds then some (-Int.ofNat (digitsToNat ds)) else none
  | ds => if isDigits ds then some (Int.ofNat (digitsToNat ds)) else none

/-- Integer-dot-fraction mantissa; at least one digit overall, as in the
ECMAScript decimal-literal grammar. -/
def parseMantissa (cs : List Char) : Option ℚ :=
  match cs.span (fun c => c != '.') with
  | (intPart, []) =>
    if isDigits intPart then some ((digitsToNat intPart : ℚ)) else none
  | (intPart, _ :: frac) =>
    if frac.contains '.' then none
    else if intPart.isEmpty && frac.isEmpty then none
    else if intPart.all Char.isDigit && frac.all Char.isDigit then
      some ((digitsToNat intPart : ℚ) + (digitsToNat frac : ℚ) / (10 : ℚ) ^ frac.length)
    else none

def tenPow (e : Int) : ℚ :=
  if 0 ≤ e then (10 : ℚ) ^ e.toNat else 1 / (10 : ℚ) ^ (-e).toNat

/-- Unsigned decimal literal with optional exponent. -/
def parseUnsignedNumber (cs : List Char) : Option ℚ :=
  match cs.span (fun c => c != 'e' && c != 'E') with
  | (m, []) => parseMantissa m
  | (m, _ :: exp) =>
    match parseMantissa m, parseExpPart exp with
    | some q, some e => some (q * tenPow e)
    | _, _ => none

/-- Model of ECMAScript `Number(string)` restricted to decimal literals: the
empty string is 0, an optional sign precedes the unsigned literal, and any
string outside the grammar is `NaN`, modelled as `none`.  Hexadecimal, octal,
binary and `Infinity` forms are outside the model; they do not occur in the
dataset. -/
def jsStringToNumber (s : String) : Option ℚ :=
  match s.toList with
  | [] => some 0
  | '+' :: rest => parseUnsignedNumber rest
  | '-' :: rest => (parseUnsignedNumber rest).map (fun q => -q)
  | cs => parseUnsignedNumber cs

/-- The sentinel tokens coerced to the absent marker by src/types.ts line 44. -/
def sentinelTokens : List String := ["", "NA", "*", "Tr", ",0,02"]

/-- The `nullableNumber` preprocessor of src/types.ts lines 39-49: numbers
pass through; strings are trimmed, checked against the sentinel list, comma-
normalized and parsed, with a parse failure (`isNaN`) becoming the absent
marker; every other value becomes the absent marker.  The function is total:
no input makes it raise. -/
def nullableNumber : SrcVal → Option ℚ
  | SrcVal.num q => some q
  | SrcVal.str s =>
    let trimmed := jsTrim s
    if sentinelTokens.contains trimmed then none
    else
      match jsStringToNumber (jsReplaceFirstComma trimmed) with
      | some parsed => some parsed
      | none => none
  | SrcVal.other => none

/-! Concrete records used by counterexamples and witnesses. -/

def rP5 : FoodItem := ⟨1, "f1", "c", [("protein_g", JSVal.num 5)]⟩

def rP22 : FoodItem := ⟨2, "f2", "c", [("protein_g", JSVal.num 22)]⟩

def rP30 : FoodItem := ⟨3, "f3", "c", [("protein_g", JSVal.num 30)]⟩

def rP18 : FoodItem := ⟨4, "f4", "c", [("protein_g", JSVal.num 18)]⟩

def rP25 : FoodItem := ⟨5, "f5", "c", [("protein_g", JSVal.num 25)]⟩

/-- The §8 end-to-end example dataset: protein values 5, 22, 30, 18, 25. -/
def dC6 : List FoodItem := [rP5, rP22, rP30, rP18, rP25]

/-- An advanced query with every parameter unspecified. -/
def noAdvParams : AdvParams :=
  ⟨none, none, none, none, none, none, none, none, none, none, none, none, none, none⟩

/-- The §8 end-to-end example query: `min_protein_g = 20`, no text,
`sort_by = protein_g`, `sort_order = desc`, `limit = 3`. -/
def pC6 : AdvParams :=
  { noAdvParams with
    min_protein_g := some 20
    sort_by := some NutrientField.protein_g
    sort_order := some SortOrder.desc
    limit := some 3 }

/-- A record whose `protein_g` column holds the explicit absent marker. -/
def rNullProt : FoodItem := ⟨9, "n", "c", [("protein_g", JSVal.null)]⟩

/-- An advanced query demanding `min_protein_g = 0` and nothing else. -/
def pMin0 : AdvParams := { noAdvParams with min_protein_g := some 0 }

def rA : FoodItem := ⟨11, "a", "c", [("protein_g", JSVal.num 10)]⟩

def rB : FoodItem := ⟨12, "b", "c", [("protein_g", JSVal.num 30)]⟩

def demoD : List FoodItem := [rA, rB]


/-! Helper lemmas about `jsSlice` and the nutrient predicate. -/

theorem mem_of_mem_jsSlice {α : Type*} {a : α} {l : List α} {n : Int}
    (h : a ∈ jsSlice l n) : a ∈ l := by
  unfold jsSlice at h
  split at h
  · exact (List.take_sublist _ _).mem h
  · exact (List.take_sublist _ _).mem h

theorem length_jsSlice_mono {α : Type*} {l1 l2 : List α}
    (h : l1.length ≤ l2.length) (n : Int) :
    (jsSlice l1 n).length ≤ (jsSlice l2 n).length := by
  unfold jsSlice
  split <;> rw [List.length_take, List.length_take] <;> omega

theorem nutrientPred_iff (nutrient : String) (min? max? : Option ℚ) (item : FoodItem) :
    nutrientPred nutrient min? max? item = true ↔
      ∃ v : ℚ, item.get nutrient = JSVal.num v ∧
        (∀ m, min? = some m → m ≤ v) ∧ (∀ m, max? = some m → v ≤ m) := by
  unfold nutrientPred
  cases hv : item.get nutrient with
  | num v => cases min? <;> cases max? <;> simp
  | null => simp
  | undefined => simp

theorem nutrientPred_min_mono {m m' : ℚ} (h : m ≤ m') (nutrient : String)
    (max? : Option ℚ) (item : FoodItem)
    (hp : nutrientPred nutrient (some m') max? item = true) :
    nutrientPred nutrient (some m) max? item = true := by
  rcases (nutrientPred_iff nutrient (some m') max? item).mp hp with ⟨v, hv, hmin, hmax⟩
  refine (nutrientPred_iff nutrient (some m) max? item).mpr ⟨v, hv, ?_, hmax⟩
  intro x hx
  injection hx with hx2
  exact hx2 ▸ le_trans h (hmin m' rfl)

theorem nutrientPred_min_none (m : ℚ) (nutrient : String)
    (max? : Option ℚ) (item : FoodItem)
    (hp : nutrientPred nutrient (some m) max? item = true) :
    nutrientPred nutrient none max? item = true := by
  rcases (nutrientPred_iff nutrient (some m) max? item).mp hp with ⟨v, hv, _, hmax⟩
  exact (nutrientPred_iff nutrient none max? item).mpr ⟨v, hv, by simp, hmax⟩

theorem nutrientPred_max_mono {x x' : ℚ} (h : x' ≤ x) (nutrient : String)
    (min? : Option ℚ) (item : FoodItem)
    (hp : nutrientPred nutrient min? (some x') item = true) :
    nutrientPred nutrient min? (some x) item = true := by
  rcases (nutrientPred_iff nutrient min? (some x') item).mp hp with ⟨v, hv, hmin, hmax⟩
  refine (nutrientPred_iff nutrient min? (some x) item).mpr ⟨v, hv, hmin, ?_⟩
  intro y hy
  injection hy with hy2
  exact hy2 ▸ le_trans (hmax x' rfl) h

theorem nutrientPred_max_none (x : ℚ) (nutrient : String)
    (min? : Option ℚ) (item : FoodItem)
    (hp : nutrientPred nutrient min? (some x) item = true) :
    nutrientPred nutrient min? none item = true := by
  rcases (nutrientPred_iff nutrient min? (some x) item).mp hp with ⟨v, hv, hmin, _⟩
  exact (nutrientPred_iff nutrient min? none item).mpr ⟨v, hv, hmin, by simp⟩

theorem filterResults_length_mono (d : List FoodItem) {pr1 pr2 : FoodItem → Bool}
    (h : ∀ item, pr1 item = true → pr2 item = true) (n : Int) :
    (jsSlice (d.filter pr1) n).length ≤ (jsSlice (d.filter pr2) n).length :=
  length_jsSlice_mono (List.monotone_filter_right d h).length_le n

/-- Claim C4: every record returned by the nutrient filter carries a present,
finite numeric value inside the requested bounds, and tightening the bounds
(raising the minimum, lowering the maximum, or adding either bound) never
increases the number of returned records, for any dataset and limit. -/
theorem filterByNutrient_sound_and_monotone :
    (∀ (d : List FoodItem) (nutrient : String) (min? max? : Option ℚ)
       (lim? : Option Int) (r : FoodItem),
       r ∈ filterByNutrientResults d nutrient min? max? lim? →
       ∃ v : ℚ, r.get nutrient = JSVal.num v ∧
         (∀ m, min? = some m → m ≤ v) ∧ (∀ m, max? = some m → v ≤ m)) ∧
    (∀ (d : List FoodItem) (nutrient : String) (max? : Option ℚ)
       (lim? : Option Int) (m m' : ℚ), m ≤ m' →
       (filterByNutrientResults d nutrient (some m') max? lim?).length ≤
         (filterByNutrientResults d nutrient (some m) max? lim?).length) ∧
    (∀ (d : List FoodItem) (nutrient : String) (max? : Option ℚ)
       (lim? : Option Int) (m : ℚ),
       (filterByNutrientResults d nutrient (some m) max? lim?).length ≤
         (filterByNutrientResults d nutrient none max? lim?).length) ∧
    (∀ (d : List FoodItem) (nutrient : String) (min? : Option ℚ)
       (lim? : Option Int) (x x' : ℚ), x' ≤ x →
       (filterByNutrientResults d nutrient min? (some x') lim?).length ≤
         (filterByNutrientResults d nutrient min? (some x) lim?).length) ∧
    (∀ (d : List FoodItem) (nutrient : String) (min? : Option ℚ)
       (lim? : Option Int) (x : ℚ),
       (filterByNutrientResults d nutrient min? (some x) lim?).length ≤
         (filterByNutrientResults d nutrient min? none lim?).length) := by
  refine ⟨?_, ?_, ?_, ?_, ?_⟩
  · intro d nutrient min? max? lim? r hr
    have hmem := mem_of_mem_jsSlice hr
    exact (nutrientPred_iff nutrient min? max? r).mp (List.mem_filter.mp hmem).2
  · intro d nutrient max? lim? m m' h
    exact filterResults_length_mono d (nutrientPred_min_mono h nutrient max?) _
  · intro d nutrient max? lim? m
    exact filterResults_length_mono d (nutrientPred_min_none m nutrient max?) _
  · intro d nutrient min? lim? x x' h
    exact filterResults_length_mono d (nutrientPred_max_mono h nutrient min?) _
  · intro d nutrient min? lim? x
    exact filterResults_length_mono d (nutrientPred_max_none x nutrient min?) _

/-- Witness for C4 at a concrete dataset: the record with protein 30 is
returned for bounds [20, 40] and its value satisfies them. -/
theorem filterByNutrient_sound_and_monotone_witness :
    rB ∈ filterByNutrientResults demoD "protein_g" (some 20) (some 40) none ∧
    ∃ v : ℚ, rB.get "protein_g" = JSVal.num v ∧
      (∀ m, (some (20 : ℚ)) = some m → m ≤ v) ∧
      (∀ m, (some (40 : ℚ)) = some m → v ≤ m) :=
  ⟨by decide,
   filterByNutrient_sound_and_monotone.1 demoD "protein_g" (some 20) (some 40) none rB
     (by decide)⟩

theorem advancedPre_limit_irrel (d : List FoodItem) (p : AdvParams) (x : Option Int) :
    advancedPre d { p with limit := x } = advancedPre d p := rfl

/-- Claim C2 (amended): for the two limit-taking query operations the result
is `slice(0, n)` of the filtered/sorted list with `n` defaulting to 10:
`n = 0` yields the empty list, `0 ≤ n` yields the first `n` records,
`n ≥ length` yields the whole list unchanged, and a negative `n` yields all
but the last `-n` records (not the empty list). -/
theorem limit_semantics :
    (∀ (d : List FoodItem) (nutrient : String) (min? max? : Option ℚ),
       filterByNutrientResults d nutrient min? max? none =
         (d.filter (nutrientPred nutrient min? max?)).take 10) ∧
    (∀ (d : List FoodItem) (nutrient : String) (min? max? : Option ℚ) (n : Int),
       0 ≤ n →
       filterByNutrientResults d nutrient min? max? (some n) =
         (d.filter (nutrientPred nutrient min? max?)).take n.toNat) ∧
    (∀ (d : List FoodItem) (nutrient : String) (min? max? : Option ℚ),
       filterByNutrientResults d nutrient min? max? (some 0) = []) ∧
    (∀ (d : List FoodItem) (nutrient : String) (min? max? : Option ℚ) (n : Int),
       ((d.filter (nutrientPred nutrient min? max?)).length : Int) ≤ n →
       filterByNutrientResults d nutrient min? max? (some n) =
         d.filter (nutrientPred nutrient min? max?)) ∧
    (∀ (d : List FoodItem) (nutrient : String) (min? max? : Option ℚ) (n : Int),
       n < 0 →
       filterByNutrientResults d nutrient min? max? (some n) =
         (d.filter (nutrientPred nutrient min? max?)).take
           ((d.filter (nutrientPred nutrient min? max?)).length - (-n).toNat)) ∧
    (∀ (d : List FoodItem) (p : AdvParams),
       advancedResults d { p with limit := none } = (advancedPre d p).take 10) ∧
    (∀ (d : List FoodItem) (p : AdvParams) (n : Int), 0 ≤ n →
       advancedResults d { p with limit := some n } = (advancedPre d p).take n.toNat) ∧
    (∀ (d : List FoodItem) (p : AdvParams),
       advancedResults d { p with limit := some 0 } = []) ∧
    (∀ (d : List FoodItem) (p : AdvParams) (n : Int),
       ((advancedPre d p).length : Int) ≤ n →
       advancedResults d { p with limit := some n } = advancedPre d p) ∧
    (∀ (d : List FoodItem) (p : AdvParams) (n : Int), n < 0 →
       advancedResults d { p with limit := some n } =
         (advancedPre d p).take ((advancedPre d p).length - (-n).toNat)) := by
  have hslice0 : ∀ {α : Type} (l : List α), jsSlice l (0 : Int) = [] := by
    intro α l; simp [jsSlice]
  have hsliceNN : ∀ {α : Type} (l : List α) (n : Int), 0 ≤ n →
      jsSlice l n = l.take n.toNat := by
    intro α l n hn; simp [jsSlice, hn]
  have hsliceAll : ∀ {α : Type} (l : List α) (n : Int), (l.length : Int) ≤ n →
      jsSlice l n = l := by
    intro α l n hn
    have h0 : 0 ≤ n := le_trans (by omega) hn
    rw [hsliceNN l n h0]
    exact List.take_of_length_le (by omega)
  have hsliceNeg : ∀ {α : Type} (l : List α) (n : Int), n < 0 →
      jsSlice l n = l.take (l.length - (-n).toNat) := by
    intro α l n hn; simp [jsSlice, not_le.mpr hn]
  refine ⟨?_, ?_, ?_, ?_, ?_, ?_, ?_, ?_, ?_, ?_⟩
  · intro d nutrient min? max?
    exact hsliceNN _ 10 (by omega)
  · intro d nutrient min? max? n hn
    exact hsliceNN _ n hn
  · intro d nutrient min? max?
    exact hslice0 _
  · intro d nutrient min? max? n hn
    exact hsliceAll _ n hn
  · intro d nutrient min? max? n hn
    exact hsliceNeg _ n hn
  · intro d p
    exact hsliceNN _ 10 (by omega)
  · intro d p n hn
    exact hsliceNN _ n hn
  · intro d p
    exact hslice0 _
  · intro d p n hn
    exact hsliceAll _ n hn
  · intro d p n hn
    exact hsliceNeg _ n hn

/-- Witness for C2 at a concrete dataset and nonnegative limit. -/
theorem limit_semantics_witness :
    (0 : Int) ≤ 3 ∧
    filterByNutrientResults demoD "protein_g" none none (some 3) =
      (demoD.filter (nutrientPred "protein_g" none none)).take (3 : Int).toNat :=
  ⟨by decide, limit_semantics.2.1 demoD "protein_g" none none 3 (by decide)⟩

/-- Counterexample to C2 as stated: with limit -1 on a two-record dataset the
nutrient filter returns the first record, not the empty list, because
`slice(0, -1)` drops only the last element. -/
theorem filterByNutrient_negative_limit_not_empty :
    filterByNutrientResults demoD "protein_g" none none (some (-1)) = [rA] ∧
    filterByNutrientResults demoD "protein_g" none none (some (-1)) ≠ [] := by
  refine ⟨by decide, by decide⟩

/-- Counterexample to C1 as stated: in advanced search a record whose
`protein_g` column holds the absent marker is returned under the constraint
`min_protein_g = 0`, because the JavaScript comparison `null >= 0` coerces the
absent marker to 0 and holds. -/
theorem advancedSearch_absent_passes_min0 :
    rNullProt.get "protein_g" = JSVal.null ∧
    advancedResults [rNullProt] pMin0 = [rNullProt] := by
  refine ⟨by decide, by decide⟩

/-- Claim C1 (amended): the nutrient-filter operation excludes any record
whose named field is absent or non-numeric, for every choice of bounds; but
the range filters of advanced search and batch sub-queries coerce an absent
(`null`) field to 0, so such a record passes a `min` bound iff `min ≤ 0` and
a `max` bound iff `0 ≤ max`, while an `undefined` field (an unknown name)
always fails a given bound. -/
theorem rangeConstraint_absent_semantics :
    (∀ (d : List FoodItem) (nutrient : String) (min? max? : Option ℚ)
       (r : FoodItem), r ∈ d.filter (nutrientPred nutrient min? max?) →
       ∃ v : ℚ, r.get nutrient = JSVal.num v) ∧
    (∀ (l : List FoodItem) (field : String) (m : ℚ) (r : FoodItem),
       r.get field = JSVal.null →
       ((r ∈ applyMinFilter field m l ↔ r ∈ l ∧ m ≤ 0) ∧
        (r ∈ applyMaxFilter field m l ↔ r ∈ l ∧ 0 ≤ m))) ∧
    (∀ (l : List FoodItem) (field : String) (m : ℚ) (r : FoodItem),
       r.get field = JSVal.undefined →
       (r ∉ applyMinFilter field m l ∧ r ∉ applyMaxFilter field m l)) := by
  refine ⟨?_, ?_, ?_⟩
  · intro d nutrient min? max? r hr
    rcases (nutrientPred_iff nutrient min? max? r).mp (List.mem_filter.mp hr).2
      with ⟨v, hv, _, _⟩
    exact ⟨v, hv⟩
  · intro l field m r hnull
    constructor
    · rw [applyMinFilter, List.mem_filter, hnull]
      simp [jsGe]
    · rw [applyMaxFilter, List.mem_filter, hnull]
      simp [jsLe]
  · intro l field m r hundef
    constructor
    · rw [applyMinFilter, List.mem_filter, hundef]
      simp [jsGe]
    · rw [applyMaxFilter, List.mem_filter, hundef]
      simp [jsLe]

/-- Witness for C1 (amended) at a concrete record with an absent field. -/
theorem rangeConstraint_absent_semantics_witness :
    rNullProt.get "protein_g" = JSVal.null ∧
    ((rNullProt ∈ applyMinFilter "protein_g" 0 [rNullProt] ↔
        rNullProt ∈ [rNullProt] ∧ (0 : ℚ) ≤ 0) ∧
     (rNullProt ∈ applyMaxFilter "protein_g" 0 [rNullProt] ↔
        rNullProt ∈ [rNullProt] ∧ (0 : ℚ) ≤ 0)) :=
  ⟨by decide,
   rangeConstraint_absent_semantics.2.1 [rNullProt] "protein_g" 0 rNullProt (by decide)⟩

theorem lookupById_of_mem :
    ∀ (d : List FoodItem), (d.map FoodItem.id).Nodup →
      ∀ r ∈ d, lookupById d r.id = some r := by
  intro d
  induction d with
  | nil => intro _ r hr; cases hr
  | cons x xs ih =>
    intro hnd r hr
    rw [List.map_cons, List.nodup_cons] at hnd
    rcases List.mem_cons.mp hr with rfl | hmem
    · exact List.find?_cons_of_pos _ (by simp)
    · have hne : ¬((fun item => item.id == r.id) x = true) := by
        simp only [beq_iff_eq]
        intro he
        apply hnd.1
        rw [he]
        exact List.mem_map_of_mem FoodItem.id hmem
      have step : lookupById (x :: xs) r.id = lookupById xs r.id :=
        List.find?_cons_of_neg _ hne
      rw [step]
      exact ih hnd.2 r hmem

theorem lookupById_of_not_mem :
    ∀ (d : List FoodItem) (i : Int), i ∉ d.map FoodItem.id → lookupById d i = none := by
  intro d
  induction d with
  | nil => intro i _; rfl
  | cons x xs ih =>
    intro i hi
    rw [List.map_cons, List.mem_cons] at hi
    push_neg at hi
    have step : lookupById (x :: xs) i = lookupById xs i := by
      apply List.find?_cons_of_neg
      simp only [beq_iff_eq]
      intro he
      exact hi.1 he.symm
    rw [step]
    exact ih i hi.2

/-- Claim C5: on a dataset with unique ids, lookup by a present id returns
exactly that record, and lookup by an absent id produces the "not found"
message, a normal value rather than an error. -/
theorem getFoodById_lookup_correct (d : List FoodItem)
    (h : (d.map FoodItem.id).Nodup) :
    (∀ r ∈ d, lookupById d r.id = some r) ∧
    (∀ i : Int, i ∉ d.map FoodItem.id →
       lookupById d i = none ∧
       getFoodByIdExecute d i = "No food found with ID " ++ toString i ++ ".") := by
  refine ⟨lookupById_of_mem d h, ?_⟩
  intro i hi
  have hnone := lookupById_of_not_mem d i hi
  refine ⟨hnone, ?_⟩
  rw [getFoodByIdExecute, hnone]

/-- Witness for C5 at a concrete two-record dataset. -/
theorem getFoodById_lookup_correct_witness :
    (demoD.map FoodItem.id).Nodup ∧ lookupById demoD rA.id = some rA :=
  ⟨by decide, (getFoodById_lookup_correct demoD (by decide)).1 rA (by decide)⟩

/-- Claim C6: the §8 end-to-end example.  Advanced search with
`min_protein_g = 20`, no query text, `sort_by = protein_g`,
`sort_order = desc`, `limit = 3` over records with protein values
5, 22, 30, 18, 25 returns exactly the records with values 30, 25, 22,
in that order. -/
theorem advancedSearch_protein_example :
    advancedResults dC6 pC6 = [rP30, rP25, rP22] ∧
    rP30.get "protein_g" = JSVal.num 30 ∧
    rP25.get "protein_g" = JSVal.num 25 ∧
    rP22.get "protein_g" = JSVal.num 22 := by
  refine ⟨by decide, by decide, by decide, by decide⟩

theorem batchBlocksAux_length (d : List FoodItem) :
    ∀ (qs : List BatchQuery) (j : Nat), (batchBlocksAux d j qs).length = qs.length := by
  intro qs
  induction qs with
  | nil => intro j; rfl
  | cons q qs ih => intro j; simp [batchBlocksAux, ih]

theorem batchBlocksAux_getElem (d : List FoodItem) :
    ∀ (qs : List BatchQuery) (i j : Nat),
      (batchBlocksAux d j qs)[i]? =
        (qs[i]?).map (fun q => "Query " ++ toString (j + i + 1) ++ ":\n" ++ runSearch d q) := by
  intro qs
  induction qs with
  | nil => intro i j; simp [batchBlocksAux]
  | cons q qs ih =>
    intro i j
    cases i with
    | zero => simp [batchBlocksAux]
    | succ k =>
      have harith : j + 1 + k = j + (k + 1) := by omega
      simp [batchBlocksAux, ih k (j + 1), harith]

/-- Claim C7: the batch tool produces one result block per sub-query, in
input order; the block at position `i` is a function of the dataset, the
position and that sub-query alone, so no other sub-query's failure or empty
result can suppress or alter it. -/
theorem batch_independent_ordered :
    (∀ (d : List FoodItem) (qs : List BatchQuery),
       (batchBlocks d qs).length = qs.length) ∧
    (∀ (d : List FoodItem) (qs : List BatchQuery) (i : Nat) (q : BatchQuery),
       qs[i]? = some q →
       (batchBlocks d qs)[i]? =
         some ("Query " ++ toString (i + 1) ++ ":\n" ++ runSearch d q)) ∧
    (∀ (d : List FoodItem) (qs1 qs2 : List BatchQuery) (i : Nat),
       qs1[i]? = qs2[i]? → (batchBlocks d qs1)[i]? = (batchBlocks d qs2)[i]?) := by
  refine ⟨?_, ?_, ?_⟩
  · intro d qs
    exact batchBlocksAux_length d qs 0
  · intro d qs i q hq
    rw [batchBlocks, batchBlocksAux_getElem d qs i 0, hq]
    simp
  · intro d qs1 qs2 i h
    rw [batchBlocks, batchBlocks, batchBlocksAux_getElem d qs1 i 0,
      batchBlocksAux_getElem d qs2 i 0, h]

/-- Witness for C7 at a concrete one-element batch. -/
theorem batch_independent_ordered_witness :
    ([BatchQuery.str "arroz"])[0]? = some (BatchQuery.str "arroz") ∧
    (batchBlocks demoD [BatchQuery.str "arroz"])[0]? =
      some ("Query " ++ toString (0 + 1) ++ ":\n" ++
        runSearch demoD (BatchQuery.str "arroz")) :=
  ⟨rfl,
   batch_independent_ordered.2.1 demoD [BatchQuery.str "arroz"] 0
     (BatchQuery.str "arroz") rfl⟩

/-- Claim C8: the loader coercion for numeric-like cells is a total function:
a number passes through unchanged; a string whose trim is one of the sentinel
tokens becomes the absent marker; any other string is comma-normalized and
handed to the numeric parser, whose failure (`NaN`) also becomes the absent
marker; any non-string non-number value becomes the absent marker. -/
theorem nullableNumber_total_coercion :
    (∀ q : ℚ, nullableNumber (SrcVal.num q) = some q) ∧
    (∀ s : String, sentinelTokens.contains (jsTrim s) = true →
       nullableNumber (SrcVal.str s) = none) ∧
    (∀ s : String, sentinelTokens.contains (jsTrim s) = false →
       nullableNumber (SrcVal.str s) =
         jsStringToNumber (jsReplaceFirstComma (jsTrim s))) ∧
    (nullableNumber SrcVal.other = none) := by
  refine ⟨fun q => rfl, ?_, ?_, rfl⟩
  · intro s h
    have hmem : jsTrim s ∈ sentinelTokens := by simpa using h
    simp [nullableNumber, hmem]
  · intro s h
    have hmem : jsTrim s ∉ sentinelTokens := by simpa using h
    simp only [nullableNumber]
    cases hp : jsStringToNumber (jsReplaceFirstComma (jsTrim s)) <;> simp [hp, hmem]

/-- Witness for C8: the sentinel `"Tr"` (with surrounding whitespace) loads
as the absent marker. -/
theorem nullableNumber_total_coercion_witness :
    sentinelTokens.contains (jsTrim " Tr ") = true ∧
    nullableNumber (SrcVal.str " Tr ") = none :=
  ⟨by decide, nullableNumber_total_coercion.2.1 " Tr " (by decide)⟩

/-- Claim C9: a nutrient-filter query naming a field that no record of the
dataset carries returns the "no foods found" message — a normal value, not a
thrown error — because an unrecognized field name matches no record. -/
theorem filterByNutrient_unknown_field_empty (d : List FoodItem)
    (nutrient : String) (min? max? : Option ℚ) (lim? : Option Int)
    (h : ∀ r ∈ d, r.fields.lookup nutrient = none) :
    filterByNutrientExecute d nutrient min? max? lim? =
      "No foods found for given nutrient filter." := by
  have hf : d.filter (nutrientPred nutrient min? max?) = [] := by
    rw [List.filter_eq_nil_iff]
    intro a ha
    simp [nutrientPred, FoodItem.get, h a ha]
  have hres : filterByNutrientResults d nutrient min? max? lim? = [] := by
    rw [filterByNutrientResults, hf]
    unfold jsSlice
    split <;> simp
  simp [filterByNutrientExecute, hres]

/-- Witness for C9: a one-record dataset queried on a field name it lacks. -/
theorem filterByNutrient_unknown_field_empty_witness :
    (∀ r ∈ [rA], r.fields.lookup "unknown_field" = none) ∧
    filterByNutrientExecute [rA] "unknown_field" none none none =
      "No foods found for given nutrient filter." :=
  ⟨by decide,
   filterByNutrient_unknown_field_empty [rA] "unknown_field" none none none (by decide)⟩

/-- Claim C10: a string sub-query inside a batch returns the first 10
case-insensitive substring matches (on description or category) in dataset
order — never more than 10 — and the batch interface hard-wires that limit:
the bound holds for every dataset and every string sub-query. -/
theorem batch_string_query_limit10 :
    ∀ (d : List FoodItem) (q : String),
      runSearchStringResults d q = (d.filter (matchesText q)).take 10 ∧
      (runSearchStringResults d q).length ≤ 10 ∧
      ∃ rest, d.filter (matchesText q) = runSearchStringResults d q ++ rest := by
  intro d q
  have h1 : runSearchStringResults d q = (d.filter (matchesText q)).take 10 := by
    simp [runSearchStringResults, jsSlice]
  refine ⟨h1, ?_, ⟨(d.filter (matchesText q)).drop 10, ?_⟩⟩
  · rw [h1, List.length_take]
    omega
  · rw [h1, List.take_append_drop]
